import Mathlib

set_option maxRecDepth 100000

/-!
Verification development for the Pockestrator orchestration engine.

Strings from the Go source are modelled as `String` where only whole-value
operations occur, and as `List Char` where the code inspects characters
(gateway-config editing, path cleaning, unit-file rendering).  Go `int` is
modelled as `Int`; ports and timestamps stay well inside its range.
Side-effecting calls (shell commands, the OS port probe) are modelled as
explicit state (a command journal) or as environment functions.
-/

namespace Pockestrator

/-! ## Character-list utilities shared by the embeddings -/

/-- Split a character list on a separator character, keeping empty components,
as Go's `strings.Split` does. -/
def splitOnChar (sep : Char) : List Char → List (List Char)
  | [] => [[]]
  | c :: rest =>
    if c = sep then [] :: splitOnChar sep rest
    else
      match splitOnChar sep rest with
      | [] => [[c]]
      | comp :: comps => (c :: comp) :: comps

/-- Join components with a `'/'` separator, as Go's `strings.Join(elems, "/")`. -/
def joinComps : List (List Char) → List Char
  | [] => []
  | [c] => c
  | c :: cs => c ++ '/' :: joinComps cs

/-- Substring test (Go's `strings.Contains`). -/
def containsSub (needle hay : List Char) : Bool := decide (needle <:+: hay)

/-- Find the first occurrence of a character, returning the text before it and
the text after it (Go's `strings.Index` + slicing idiom). -/
def breakAtChar (sep : Char) : List Char → Option (List Char × List Char)
  | [] => none
  | c :: rest =>
    if c = sep then some ([], rest)
    else (breakAtChar sep rest).map (fun kv => (c :: kv.1, kv.2))

/-! ## C1 — port auto-assignment (`internal/service` `Manager.GetNextPort`,
used by `pkg` `Orchestrator.CreateService` when the request omits the port) -/

/-- One iteration bound of the loop `for port := basePort; port <= 65535; port++`;
the fuel counts the remaining iterations (57445 covers 8091..65535), and fuel
exhaustion is the loop's fallback `return basePort`. -/
def GetNextPortLoop (usedPorts : List Int) : Nat → Int → Int
  | 0, _ => 8091
  | fuel + 1, port => if port ∈ usedPorts then GetNextPortLoop usedPorts fuel (port + 1) else port

/-- `Manager.GetNextPort`: first available port starting from the base port 8091
(the Go map lookup is modelled by list membership). -/
def GetNextPort (usedPorts : List Int) : Int :=
  GetNextPortLoop usedPorts 57445 8091

/-! ## C4 — rollback journal (`internal/services` `RollbackManager.Rollback`) -/

/-- A journal entry: type tag, description, and the outcome its compensating
closure would produce when run (`none` = success, `some e` = the error text). -/
structure RollbackOperation where
  opType : String
  description : String
  result : Option String
deriving DecidableEq, Repr

/-- The loop body of `Rollback`: walk the entries in reverse append order,
recording each executed compensator and keeping only the latest error. -/
def RollbackExecute (ops : List RollbackOperation) : List String × Option String :=
  ops.reverse.foldl
    (fun acc op =>
      (acc.1 ++ [op.description],
       match op.result with
       | some e => some e
       | none => acc.2))
    ([], none)

/-- `RollbackManager.Rollback`: returns the execution order, the cleared
operation list, and the wrapped error value (`nil` early-return on an empty
journal; otherwise the last recorded error wrapped with the fixed prefix). -/
def Rollback (ops : List RollbackOperation) :
    List String × List RollbackOperation × Option String :=
  if ops.isEmpty then ([], [], none)
  else
    let run := RollbackExecute ops
    (run.1, [], run.2.map (fun e => "errors occurred during rollback: " ++ e))

/-! ## C2/C3 — gateway configuration managers

Two parallel implementations exist in the source: `internal/caddy.Manager`
(used by `pkg.Orchestrator`) and `internal/services.CaddyManagerImpl`.
Both edit the shared Caddyfile with the single-level regular expression
`<sub>\.<dom>\s*\{[^}]*\}` (the Impl variant uses a single literal space
before the brace and a trailing `\s*`).  Because `[^}]*` cannot cross a
closing brace, the match is deterministic: maximal whitespace run, an
opening brace, everything up to the first closing brace, that brace (and
for the Impl variant any following whitespace). -/

/-- Decimal rendering of a Go `int`, as `fmt.Sprintf("%d", ·)` and
`text/template` produce. -/
def intChars (p : Int) : List Char := (toString p).toList

namespace Caddy

/-- RE2 `\s` character class: `[\t\n\f\r ]`. -/
def isGoRegexpSpace (c : Char) : Bool :=
  c = ' ' || c = '\t' || c = '\n' || c = '\x0c' || c = '\r'

/-- `ConfigTemplate` of `internal/caddy`, rendered for a service
(subdomain, domain, port); the Go raw-string literal begins and ends with a
newline. -/
def ConfigTemplateRendered (sub dom : List Char) (port : Int) : List Char :=
  '\n' :: (sub ++ '.' :: dom
    ++ (" \x7b\n    request_body \x7b\n        max_size 10MB\n    \x7d\n    reverse_proxy 127.0.0.1:").toList
    ++ intChars port
    ++ (" \x7b\n        transport http \x7b\n            read_timeout 360s\n        \x7d\n        # Add these headers to forward client IP\n        header_up X-Forwarded-For \x7bremote_host\x7d\n        header_up X-Real-IP \x7bremote_host\x7d\n    \x7d\n\x7d\n").toList)

/-- Match the pattern `<lit>\s*\{[^}]*\}` at the head of `s`; on success
return the remaining input after the match. -/
def matchBlockAt (lit s : List Char) : Option (List Char) :=
  if lit.isPrefixOf s then
    match (s.drop lit.length).dropWhile isGoRegexpSpace with
    | '\x7b' :: afterBrace =>
      match afterBrace.dropWhile (fun c => c ≠ '\x7d') with
      | '\x7d' :: rem => some rem
      | _ => none
    | _ => none
  else none

/-- `regexp.ReplaceAll` with the empty replacement: scan left to right,
delete each leftmost non-overlapping match, continue after it.  The fuel
argument (instantiated with the input length, which the scan can never
exhaust) makes the recursion structural. -/
def replaceAllFuel (lit : List Char) : Nat → List Char → List Char
  | 0, s => s
  | _ + 1, [] => []
  | fuel + 1, c :: rest =>
    match matchBlockAt lit (c :: rest) with
    | some rem => replaceAllFuel lit fuel rem
    | none => c :: replaceAllFuel lit fuel rest

/-- `Manager.RemoveService`: delete every match of
`<sub>\.<dom>\s*\{[^}]*\}` from the Caddyfile content. -/
def RemoveService (sub dom content : List Char) : List Char :=
  replaceAllFuel (sub ++ '.' :: dom) content.length content

/-- `Manager.configExists`: a line-by-line scan for the substring
`<sub>.<dom>` (`bufio.Scanner` + `strings.Contains`). -/
def configExists (sub dom content : List Char) : Bool :=
  (splitOnChar '\n' content).any (fun line => containsSub (sub ++ '.' :: dom) line)

/-- `Manager.AddService`: error when a configuration for the subdomain
already exists, otherwise append the rendered template to the file. -/
def AddService (sub dom : List Char) (port : Int) (content : List Char) :
    Except (List Char) (List Char) :=
  if configExists sub dom content then
    .error (("configuration for ").toList ++ sub ++ '.' :: dom ++ (" already exists").toList)
  else
    .ok (content ++ ConfigTemplateRendered sub dom port)

end Caddy

namespace CaddyImpl

/-- `CaddyManagerImpl.generateConfig` for (subdomain, manager domain, port). -/
def generateConfig (sub dom : List Char) (port : Int) : List Char :=
  sub ++ '.' :: dom ++ (" \x7b\n    reverse_proxy 127.0.0.1:").toList ++ intChars port
    ++ ("\n    header Strict-Transport-Security max-age=31536000;\n    encode gzip\n\x7d\n\n").toList

/-- `CaddyManagerImpl.configExists`: regex `<sub>\.<dom> \{` i.e. a substring
test for the literal opener. -/
def configExists (sub dom content : List Char) : Bool :=
  containsSub (sub ++ '.' :: dom ++ (" \x7b").toList) content

/-- Match `<lit>[^}]*\}\s*` at the head of `s` (the literal already ends in
the space and opening brace); on success return the remaining input. -/
def matchImplAt (lit s : List Char) : Option (List Char) :=
  if lit.isPrefixOf s then
    match (s.drop lit.length).dropWhile (fun c => c ≠ '\x7d') with
    | '\x7d' :: rem => some (rem.dropWhile Caddy.isGoRegexpSpace)
    | _ => none
  else none

/-- `regexp.ReplaceAllString` with empty replacement for the Impl pattern
(fuel-structured scan as in `Caddy.replaceAllFuel`). -/
def replaceAllImplFuel (lit : List Char) : Nat → List Char → List Char
  | 0, s => s
  | _ + 1, [] => []
  | fuel + 1, c :: rest =>
    match matchImplAt lit (c :: rest) with
    | some rem => replaceAllImplFuel lit fuel rem
    | none => c :: replaceAllImplFuel lit fuel rest

/-- `CaddyManagerImpl.removeConfig`: delete every match of
`<sub>\.<dom> \{[^}]*\}\s*` from the content. -/
def removeConfig (sub dom content : List Char) : List Char :=
  replaceAllImplFuel (sub ++ '.' :: dom ++ (" \x7b").toList) content.length content

/-- `CaddyManagerImpl.AddConfiguration` (content transformation): remove any
existing block for the subdomain, ensure a trailing newline, then append the
freshly generated block. -/
def AddConfiguration (sub dom : List Char) (port : Int) (content : List Char) : List Char :=
  let content1 := if configExists sub dom content then removeConfig sub dom content else content
  let content2 := if content1.getLast? = some '\n' then content1 else content1 ++ ['\n']
  content2 ++ generateConfig sub dom port

end CaddyImpl

/-! ## Validation (`internal/validation` `Validator`)

`strings.TrimSpace` is modelled by `String.trim`, Go `len` on the ASCII
names at issue by `String.length`, and `strings.EqualFold` by lower-casing
both sides.  The OS `net.Listen` probe of `IsPortAvailable` is an
environment function `portFree`. -/

namespace Validation

structure ValidationError where
  field : String
  message : String
  code : String
deriving DecidableEq, Repr

structure ValidationResult where
  isValid : Bool
  errors : List ValidationError
  warnings : List ValidationError
deriving DecidableEq, Repr

/-- `strings.TrimSpace` (character-list model, so that it evaluates in the
kernel). -/
def goTrimSpace (s : String) : String :=
  String.mk (((s.toList.dropWhile Char.isWhitespace).reverse.dropWhile Char.isWhitespace).reverse)

/-- `strings.EqualFold` (ASCII-relevant part). -/
def eqFold (a b : String) : Bool := a.toList.map Char.toLower == b.toList.map Char.toLower

/-- Character class of `^[a-zA-Z0-9_-]+$`. -/
def isNameChar (c : Char) : Bool := c.isAlpha || c.isDigit || c = '_' || c = '-'

def reservedNames : List String :=
  ["admin", "api", "www", "mail", "ftp", "root", "system", "caddy", "systemd"]

/-- `Validator.ValidateProjectName`. -/
def ValidateProjectName (name : String) : ValidationResult :=
  if goTrimSpace name = "" then
    ⟨false, [⟨"project_name", "Project name cannot be empty", "EMPTY_NAME"⟩], []⟩
  else
    let r1 : ValidationResult :=
      if name.length > 50 then
        ⟨false, [⟨"project_name", "Project name cannot exceed 50 characters", "NAME_TOO_LONG"⟩], []⟩
      else ⟨true, [], []⟩
    let r2 : ValidationResult :=
      if !(!name.toList.isEmpty && name.toList.all isNameChar) then
        ⟨false, r1.errors ++ [⟨"project_name",
          "Project name can only contain letters, numbers, hyphens, and underscores",
          "INVALID_CHARACTERS"⟩], r1.warnings⟩
      else r1
    let r3 : ValidationResult :=
      if !(match name.toList with | c :: _ => c.isAlpha | [] => false) then
        ⟨false, r2.errors ++ [⟨"project_name", "Project name must start with a letter",
          "INVALID_START"⟩], r2.warnings⟩
      else r2
    reservedNames.foldl
      (fun r reserved =>
        if eqFold name reserved then
          ⟨false, r.errors ++ [⟨"project_name", "'" ++ reserved ++ "' is a reserved name",
            "RESERVED_NAME"⟩], r.warnings⟩
        else r)
      r3

/-- `Validator.ValidatePort` (the `net.Listen` probe is `portFree`). -/
def ValidatePort (portFree : Int → Bool) (port : Int) : ValidationResult :=
  if port < 1024 || port > 65535 then
    ⟨false, [⟨"port", "Port must be between 1024 and 65535", "INVALID_PORT_RANGE"⟩], []⟩
  else if !portFree port then
    ⟨false, [⟨"port", "Port " ++ toString port ++ " is already in use", "PORT_IN_USE"⟩], []⟩
  else ⟨true, [], []⟩

/-- `[a-zA-Z0-9]` of the domain regex. -/
def isAlnumA (c : Char) : Bool := c.isAlpha || c.isDigit

/-- One DNS label per the source regex
`[a-zA-Z0-9]([a-zA-Z0-9\-]{0,61}[a-zA-Z0-9])?`. -/
def validLabel (l : List Char) : Bool :=
  match l with
  | [] => false
  | c :: rest =>
    match rest.reverse with
    | [] => isAlnumA c
    | last :: midRev =>
      isAlnumA c && isAlnumA last && midRev.all (fun x => isAlnumA x || x = '-')
        && (c :: rest).length ≤ 63

/-- The domain regex `^L(\.L)*$` with `L` as `validLabel`. -/
def domainMatches (domain : List Char) : Bool :=
  (splitOnChar '.' domain).all validLabel

/-- `Validator.ValidateDomain`. -/
def ValidateDomain (domain : String) : ValidationResult :=
  if goTrimSpace domain = "" then
    ⟨false, [⟨"domain", "Domain cannot be empty", "EMPTY_DOMAIN"⟩], []⟩
  else if !domainMatches domain.toList then
    ⟨false, [⟨"domain", "Invalid domain format", "INVALID_DOMAIN_FORMAT"⟩], []⟩
  else ⟨true, [], []⟩

def isDigitsNE (l : List Char) : Bool := !l.isEmpty && l.all (·.isDigit)

/-- `[0-9A-Za-z-]+` of the semver regex. -/
def isIdentNE (l : List Char) : Bool :=
  !l.isEmpty && l.all (fun c => c.isAlpha || c.isDigit || c = '-')

def isDotSepIdents (l : List Char) : Bool := (splitOnChar '.' l).all isIdentNE

/-- The semver regex
`^(\d+)\.(\d+)\.(\d+)(?:-pre(\.pre)*)?(?:\+build(\.build)*)?$`: split at the
first `+` (identifiers cannot contain `+`), then at the first `-` (the core
is digits only), and check the three parts. -/
def isSemver (v : List Char) : Bool :=
  let afterPlus := breakAtChar '+' v
  let mainPart := match afterPlus with | some p => p.1 | none => v
  let buildOk := match afterPlus with | some p => isDotSepIdents p.2 | none => true
  let afterDash := breakAtChar '-' mainPart
  let core := match afterDash with | some p => p.1 | none => mainPart
  let preOk := match afterDash with | some p => isDotSepIdents p.2 | none => true
  let coreOk :=
    match splitOnChar '.' core with
    | [a, b, c] => isDigitsNE a && isDigitsNE b && isDigitsNE c
    | _ => false
  coreOk && preOk && buildOk

/-- `Validator.ValidateVersion`. -/
def ValidateVersion (version : String) : ValidationResult :=
  if goTrimSpace version = "" then
    ⟨false, [⟨"version", "Version cannot be empty", "EMPTY_VERSION"⟩], []⟩
  else if !isSemver version.toList then
    ⟨false, [⟨"version", "Invalid version format (expected semantic versioning like 1.2.3)",
      "INVALID_VERSION_FORMAT"⟩], []⟩
  else ⟨true, [], []⟩

/-- `Validator.ValidateServiceUniqueness` (the loop breaks after the first
case-insensitive match). -/
def ValidateServiceUniqueness (projectName : String) (existingServices : List String) :
    ValidationResult :=
  if (existingServices.find? (fun e => eqFold projectName e)).isSome then
    ⟨false, [⟨"project_name", "Service '" ++ projectName ++ "' already exists",
      "DUPLICATE_SERVICE"⟩], []⟩
  else ⟨true, [], []⟩

/-- `Validator.ValidatePortUniqueness`. -/
def ValidatePortUniqueness (port : Int) (existingPorts : List Int) : ValidationResult :=
  if existingPorts.contains port then
    ⟨false, [⟨"port", "Port " ++ toString port ++ " is already used by another service",
      "DUPLICATE_PORT"⟩], []⟩
  else ⟨true, [], []⟩

/-- `Validator.ValidateServiceConfiguration`: aggregate of the field checks,
errors and warnings appended in source order, valid only when every part is. -/
def ValidateServiceConfiguration (portFree : Int → Bool) (projectName : String) (port : Int)
    (version domain : String) (existingServices : List String) (existingPorts : List Int) :
    ValidationResult :=
  let nameR := ValidateProjectName projectName
  let portR := ValidatePort portFree port
  let versionR := ValidateVersion version
  let domainR := ValidateDomain domain
  let uniqR := ValidateServiceUniqueness projectName existingServices
  let uniqPR := ValidatePortUniqueness port existingPorts
  { isValid := nameR.isValid && portR.isValid && versionR.isValid && domainR.isValid
      && uniqR.isValid && uniqPR.isValid,
    errors := nameR.errors ++ portR.errors ++ versionR.errors ++ domainR.errors
      ++ uniqR.errors ++ uniqPR.errors,
    warnings := nameR.warnings ++ portR.warnings ++ versionR.warnings ++ domainR.warnings }

end Validation

/-! ## Orchestrator state machine (`pkg.Orchestrator` with the
`internal/database`, `internal/systemd`, `internal/caddy`, `internal/service`
managers wired up as in `main.go`)

The repository, unit directory, gateway file, service directories and the
journal of shell commands are explicit state; asynchronous deployment is
recorded as a pending-deploy entry (the goroutine spawned by `CreateService`). -/

/-- `database.ServiceRecord`. -/
structure ServiceRecord where
  id : String
  projectName : String
  port : Int
  pocketbaseVersion : String
  domain : String
  status : String
  systemdConfigHash : String
  caddyConfigHash : String
  createdBy : String
  lastHealthCheck : Int
deriving DecidableEq, Repr

/-- `pkg.ServiceRequest`. -/
structure ServiceRequest where
  projectName : String
  pocketbaseVersion : String
  port : Int
  domain : String
  description : String
  createdBy : String
deriving DecidableEq, Repr

/-- `pkg.ServiceResponse`. -/
structure ServiceResponse where
  id : String
  status : String
  message : String
  data : Option ServiceRecord
  errors : List Validation.ValidationError
deriving DecidableEq, Repr

/-- Deployment configuration (`pkg.Config` / `main.Config`) plus the
environment behaviour of the host: the OS port probe and the supervisor
`is-active` answer. -/
structure Env where
  defaultDomain : String
  baseDir : String
  systemdDir : String
  portFree : Int → Bool
  isActive : String → Bool

/-- The world the orchestrator mutates. -/
structure SystemState where
  records : List ServiceRecord
  unitFiles : List String
  caddyfile : List Char
  dirs : List String
  commands : List String
  pendingDeploys : List String
  logLines : List String
deriving DecidableEq, Repr

/-- `database.Manager.GetUsedPorts`. -/
def GetUsedPorts (st : SystemState) : List Int := st.records.map (·.port)

/-- `database.Manager.GetExistingServices`. -/
def GetExistingServices (st : SystemState) : List String := st.records.map (·.projectName)

/-- `service.Manager.GetLatestVersion` (the source returns this constant). -/
def GetLatestVersion : String := "0.28.4"

def effectiveVersion (req : ServiceRequest) : String :=
  if req.pocketbaseVersion = "" then GetLatestVersion else req.pocketbaseVersion

def effectiveDomain (env : Env) (req : ServiceRequest) : String :=
  if req.domain = "" then env.defaultDomain else req.domain

/-- Port auto-assignment step of `Orchestrator.CreateService`. -/
def effectivePort (st : SystemState) (req : ServiceRequest) : Int :=
  if req.port = 0 then GetNextPort (GetUsedPorts st) else req.port

/-- The validation call made by `Orchestrator.CreateService`. -/
def createValidation (env : Env) (st : SystemState) (req : ServiceRequest) :
    Validation.ValidationResult :=
  Validation.ValidateServiceConfiguration env.portFree req.projectName (effectivePort st req)
    (effectiveVersion req) (effectiveDomain env req) (GetExistingServices st) (GetUsedPorts st)

/-- `Orchestrator.CreateService` up to the point where it returns to the
caller: resolve defaults, validate (returning the error response with no state
change on failure), otherwise persist the `deploying` row and spawn the
asynchronous deployment (recorded in `pendingDeploys`). -/
def CreateService (env : Env) (st : SystemState) (req : ServiceRequest) (newId : String)
    (now : Int) : SystemState × ServiceResponse :=
  let vr := createValidation env st req
  if vr.isValid then
    let rec0 : ServiceRecord :=
      { id := newId, projectName := req.projectName, port := effectivePort st req,
        pocketbaseVersion := effectiveVersion req, domain := effectiveDomain env req,
        status := "deploying", systemdConfigHash := "", caddyConfigHash := "",
        createdBy := req.createdBy, lastHealthCheck := now }
    ({ st with records := st.records ++ [rec0], pendingDeploys := st.pendingDeploys ++ [newId] },
     { id := newId, status := "deploying", message := "Service deployment started",
       data := some rec0, errors := [] })
  else
    (st, { id := "", status := "error", message := "Validation failed", data := none,
           errors := vr.errors })

/-- `<project>-pocketbase.service`. -/
def systemdUnitFileName (name : String) : String := name ++ "-pocketbase.service"

/-- `Orchestrator.DeleteService`: look the row up, remove the systemd unit
(`systemd.Manager.RemoveService`: stop, disable, delete file, daemon-reload),
remove the gateway block (`caddy.Manager.RemoveService`, the naive regex) and
reload, remove the service files (`service.Manager.Remove`: stop, disable,
delete unit file again, daemon-reload, delete the whole service directory),
then delete the repository row. -/
def DeleteService (env : Env) (st : SystemState) (id : String) :
    SystemState × Except String ServiceResponse :=
  match st.records.find? (fun r => r.id == id) with
  | none => (st, .error "failed to get service")
  | some r =>
    let unit := systemdUnitFileName r.projectName
    let unitPath := env.systemdDir ++ "/" ++ unit
    let st1 := { st with
      commands := st.commands ++ ["sudo systemctl stop " ++ unit,
        "sudo systemctl disable " ++ unit, "sudo systemctl daemon-reload"],
      unitFiles := st.unitFiles.filter (fun p => p != unitPath) }
    let st2 := { st1 with
      caddyfile := Caddy.RemoveService r.projectName.toList r.domain.toList st1.caddyfile,
      commands := st1.commands ++ ["caddy validate", "sudo systemctl reload caddy"] }
    let serviceDir := env.baseDir ++ "/" ++ r.projectName
    let st3 := { st2 with
      commands := st2.commands ++ ["sudo systemctl stop " ++ unit,
        "sudo systemctl disable " ++ unit, "sudo systemctl daemon-reload"],
      unitFiles := st2.unitFiles.filter (fun p => p != unitPath),
      dirs := st2.dirs.filter (fun d => d != serviceDir) }
    let st4 := { st3 with records := st3.records.filter (fun rr => rr.id != id) }
    (st4, .ok { id := id, status := "success", message := "Service deleted successfully",
                data := none, errors := [] })

/-- `Orchestrator.ControlService`: look the row up, dispatch
start/stop/restart to the supervisor, then set the stored status (and, via
`UpdateServiceStatus`, the health-check timestamp); any other action string
yields the error response with a nil Go error and no side effect. -/
def ControlService (env : Env) (st : SystemState) (id action : String) (now : Int) :
    SystemState × Except String ServiceResponse :=
  match st.records.find? (fun r => r.id == id) with
  | none => (st, .error "failed to get service")
  | some svc =>
    if action = "start" ∨ action = "stop" ∨ action = "restart" then
      let st1 := { st with
        commands := st.commands
          ++ ["sudo systemctl " ++ action ++ " " ++ systemdUnitFileName svc.projectName] }
      let newStatus := if action = "stop" then "inactive" else "active"
      let st2 := { st1 with
        records := st1.records.map (fun r =>
          if r.id == id then { r with status := newStatus, lastHealthCheck := now } else r) }
      (st2, .ok { id := id, status := "success",
                  message := "Service " ++ action ++ " completed successfully",
                  data := none, errors := [] })
    else
      (st, .ok { id := "", status := "error", message := "Invalid action: " ++ action,
                 data := none, errors := [] })

/-- Ticker period of the health-check goroutine in `setupHooks`
(`time.NewTicker(5 * time.Minute)`). -/
def healthCheckPeriodMinutes : Nat := 5

/-- Per-record drift log line of `performHealthCheck`. -/
def transitionLog (isActive : String → Bool) (svc : ServiceRecord) : Option String :=
  if isActive svc.projectName && svc.status != "active" then
    some ("✅ Service " ++ svc.projectName ++ " is now active")
  else if !isActive svc.projectName && svc.status == "active" then
    some ("⚠️  Service " ++ svc.projectName ++ " is now inactive")
  else none

/-- `PocketstratorApp.performHealthCheck`: list all services, query the
supervisor state for each, and log status transitions.  (The source performs
no repository write here.) -/
def PerformHealthCheck (isActive : String → Bool) (st : SystemState) : SystemState :=
  let logs1 := st.logLines ++ ["🔍 Performing health check on all services..."]
  let logs2 := st.records.foldl
    (fun logs svc =>
      if isActive svc.projectName && svc.status != "active" then
        logs ++ ["✅ Service " ++ svc.projectName ++ " is now active"]
      else if !isActive svc.projectName && svc.status == "active" then
        logs ++ ["⚠️  Service " ++ svc.projectName ++ " is now inactive"]
      else logs)
    logs1
  { st with logLines := logs2 ++ ["✅ Health check completed"] }

/-! ## `internal/services` deletion path (`ServiceCreationManager.DeleteService`) -/

namespace Services

/-- `models.Service`. -/
structure ImplService where
  id : String
  name : String
  port : Int
  version : String
  subdomain : String
  status : String
deriving DecidableEq, Repr

/-- The world touched by the `internal/services` managers. -/
structure ScmState where
  unitFiles : List String
  caddyfile : List Char
  dirs : List String
  commands : List String
  logLines : List String
deriving DecidableEq, Repr

/-- `ServiceCreationManager.DeleteService`: remove the systemd unit
(`SystemdManagerImpl.RemoveService`), remove the Caddy block when present
(`CaddyManagerImpl.RemoveConfiguration` + reload), then deliberately keep the
service directory, logging the preserved path. -/
def ScmDeleteService (baseDir systemdDir domain : String) (st : ScmState)
    (svc : ImplService) : ScmState × Option String :=
  let unit := svc.name ++ "-pocketbase.service"
  let unitPath := systemdDir ++ "/" ++ unit
  let st1 := { st with
    commands := st.commands ++ ["systemctl stop " ++ unit, "systemctl disable " ++ unit,
      "systemctl daemon-reload"],
    unitFiles := st.unitFiles.filter (fun p => p != unitPath) }
  let st2 :=
    if CaddyImpl.configExists svc.name.toList domain.toList st1.caddyfile then
      { st1 with
        caddyfile := CaddyImpl.removeConfig svc.name.toList domain.toList st1.caddyfile,
        commands := st1.commands ++ ["systemctl reload caddy"] }
    else st1
  let st3 := { st2 with logLines := st2.logLines
    ++ ["Service directory will be preserved at: " ++ baseDir ++ "/" ++ svc.name] }
  (st3, none)

end Services

/-! ## C8 — archive extraction (`internal/service` `Manager.extractZip`)

`filepath.Clean` and `filepath.Join` are modelled on character lists by the
Plan-9 cleaning algorithm Go implements: split on `/`, process the components
against a stack (dropping empty and `.` components, popping on `..`, keeping
leading `..` only in relative paths), and re-join. -/

/-- The component-stack pass of Go's `filepath.Clean`. -/
def cleanStack (rooted : Bool) : List (List Char) → List (List Char) → List (List Char)
  | [], acc => acc.reverse
  | comp :: comps, acc =>
    if comp = [] ∨ comp = ['.'] then cleanStack rooted comps acc
    else if comp = ['.', '.'] then
      match acc with
      | [] => if rooted then cleanStack rooted comps [] else cleanStack rooted comps [['.', '.']]
      | top :: rest =>
        if top = ['.', '.'] then cleanStack rooted comps (comp :: top :: rest)
        else cleanStack rooted comps rest
    else cleanStack rooted comps (comp :: acc)

/-- `strings.HasPrefix(s, "/")`. -/
def isRooted (s : List Char) : Bool := s.head? == some '/'

/-- Go's `filepath.Clean` on Unix. -/
def goClean (s : List Char) : List Char :=
  let comps := cleanStack (isRooted s) (splitOnChar '/' s) []
  if isRooted s then '/' :: joinComps comps
  else if comps = [] then ['.'] else joinComps comps

/-- Go's `filepath.Join` of two elements: drop empty elements, join the rest
with `/`, and clean. -/
def goJoin (a b : List Char) : List Char :=
  if a = [] && b = [] then []
  else if a = [] then goClean b
  else if b = [] then goClean a
  else goClean (a ++ '/' :: b)

/-- An archive member as `extractZip` sees it. -/
structure ZipEntry where
  name : List Char
  isDir : Bool
deriving DecidableEq, Repr

/-- `Manager.extractZip`: for each entry compute
`path := filepath.Join(dest, file.Name)`, reject the entry (aborting the
whole extraction) unless `filepath.Clean(dest) + "/"` is a string prefix of
`path`, and otherwise create the file or directory at `path`.  The result is
the list of paths written (directories included) and the error, if any. -/
def extractZip (dest : List Char) (entries : List ZipEntry) :
    List (List Char) × Option (List Char) :=
  match entries with
  | [] => ([], none)
  | e :: rest =>
    let path := goJoin dest e.name
    if (goClean dest ++ ['/']).isPrefixOf path then
      let result := extractZip dest rest
      (path :: result.1, result.2)
    else
      ([], some (("invalid file path: ").toList ++ e.name))

/-- A clean, non-special path component. -/
def goodComp (c : List Char) : Prop :=
  c ≠ [] ∧ c ≠ ['.'] ∧ c ≠ ['.', '.'] ∧ '/' ∉ c

/-- `p` lies strictly inside the directory subtree of `dest`: its component
list extends `Clean(dest)`'s by a nonempty run of ordinary components (no
empty, `.` or `..` parts that could climb out). -/
def inSubtree (dest p : List Char) : Prop :=
  ∃ suffix, splitOnChar '/' p = splitOnChar '/' (goClean dest) ++ suffix ∧
    suffix ≠ [] ∧ ∀ c ∈ suffix, goodComp c

/-! ## C9 — the systemd unit file (`internal/systemd` `Manager.CreateService`
and `ServiceTemplate`, the unit manager `main.go` wires into the orchestrator) -/

/-- Join components with a separator (`strings.Join`, generalized). -/
def joinWith (sep : Char) : List (List Char) → List Char
  | [] => []
  | [c] => c
  | c :: cs => c ++ sep :: joinWith sep cs

namespace Systemd

/-- `ServiceTemplate` rendered by `text/template` for
(ProjectName, ServiceDir, Port); the Go raw-string literal starts at `[Unit]`
and ends with a newline. -/
def ServiceTemplateRendered (projectName serviceDir : List Char) (port : Int) : List Char :=
  ("[Unit]\nDescription = ").toList ++ projectName
    ++ (" pocketbase\n\n[Service]\nType           = simple\nUser           = root\nGroup          = root\nLimitNOFILE    = 4096\nRestart        = always\nRestartSec     = 5s\nStandardOutput   = append:").toList
    ++ serviceDir ++ ("/errors.log\nStandardError    = append:").toList
    ++ serviceDir ++ ("/errors.log\nWorkingDirectory = ").toList
    ++ serviceDir ++ ("/\nExecStart      = ").toList
    ++ serviceDir ++ ("/pocketbase serve --http=\"127.0.0.1:").toList ++ intChars port
    ++ ("\"\n\n[Install]\nWantedBy = multi-user.target\n").toList

/-- The unit-file path `filepath.Join(systemdDir, projectName +
"-pocketbase.service")` used by `Manager.CreateService`. -/
def CreateServicePath (systemdDir projectName : List Char) : List Char :=
  goJoin systemdDir (projectName ++ ("-pocketbase.service").toList)

/-- The mode `Manager.CreateService` chmods the unit file to. -/
def serviceFileMode : Nat := 0o644

/-- Does the list start with a character that is not a space? -/
def headNotSpace : List Char → Bool
  | [] => false
  | c :: _ => c != ' '

/-- Trim ASCII spaces from both ends (how a key/value parser of the emitted
`Key = value` lines normalizes a field). -/
def trimSpacesList (l : List Char) : List Char :=
  ((l.dropWhile (fun c => c == ' ')).reverse.dropWhile (fun c => c == ' ')).reverse

/-- Parse one unit-file line into a (key, value) pair at the first `=`. -/
def parseUnitLine (line : List Char) : Option (List Char × List Char) :=
  (breakAtChar '=' line).map (fun kv => (trimSpacesList kv.1, trimSpacesList kv.2))

/-- All `Key = value` fields of a unit file, in order. -/
def unitFields (content : List Char) : List (List Char × List Char) :=
  (splitOnChar '\n' content).filterMap parseUnitLine

end Systemd

/-! ## Supporting lemmas -/

theorem splitOnChar_ne_nil (sep : Char) (l : List Char) : splitOnChar sep l ≠ [] := by
  induction l with
  | nil => simp [splitOnChar]
  | cons c rest ih =>
    simp only [splitOnChar]
    split
    · simp
    · cases h : splitOnChar sep rest with
      | nil => simp
      | cons comp comps => simp

theorem splitOnChar_append (sep : Char) (a b : List Char) :
    splitOnChar sep (a ++ sep :: b) = splitOnChar sep a ++ splitOnChar sep b := by
  induction a with
  | nil => simp [splitOnChar]
  | cons c rest ih =>
    rw [List.cons_append]
    by_cases hc : c = sep
    · rw [splitOnChar, if_pos hc, splitOnChar, if_pos hc, ih, List.cons_append]
    · rw [splitOnChar, if_neg hc, splitOnChar, if_neg hc, ih]
      cases h : splitOnChar sep rest with
      | nil => exact absurd h (splitOnChar_ne_nil sep rest)
      | cons comp comps => simp

theorem splitOnChar_of_not_mem {sep : Char} {l : List Char} (h : sep ∉ l) :
    splitOnChar sep l = [l] := by
  induction l with
  | nil => simp [splitOnChar]
  | cons c rest ih =>
    simp only [List.mem_cons, not_or] at h
    have hc : ¬ c = sep := fun hcc => h.1 hcc.symm
    rw [splitOnChar, if_neg hc, ih h.2]

theorem not_mem_of_mem_splitOnChar {sep : Char} {l : List Char} {comp : List Char}
    (h : comp ∈ splitOnChar sep l) : sep ∉ comp := by
  induction l generalizing comp with
  | nil =>
    simp only [splitOnChar, List.mem_singleton] at h
    subst h; simp
  | cons c rest ih =>
    simp only [splitOnChar] at h
    split at h
    · rcases List.mem_cons.mp h with h | h
      · subst h; simp
      · exact ih h
    · rename_i hc
      cases hsplit : splitOnChar sep rest with
      | nil => exact absurd hsplit (splitOnChar_ne_nil sep rest)
      | cons comp0 comps =>
        rw [hsplit] at h
        rcases List.mem_cons.mp h with h | h
        · subst h
          intro hmem
          rcases List.mem_cons.mp hmem with h1 | h1
          · exact hc h1.symm
          · have : comp0 ∈ splitOnChar sep rest := by rw [hsplit]; exact List.mem_cons_self _ _
            exact ih this h1
        · exact ih (by rw [hsplit]; exact List.mem_cons_of_mem _ h)

theorem splitOnChar_joinComps {comps : List (List Char)} (hne : comps ≠ [])
    (hfree : ∀ c ∈ comps, '/' ∉ c) :
    splitOnChar '/' (joinComps comps) = comps := by
  induction comps with
  | nil => exact absurd rfl hne
  | cons c cs ih =>
    cases cs with
    | nil =>
      simp only [joinComps]
      exact splitOnChar_of_not_mem (hfree c (List.mem_cons_self _ _))
    | cons c2 cs2 =>
      have : joinComps (c :: c2 :: cs2) = c ++ '/' :: joinComps (c2 :: cs2) := rfl
      rw [this, splitOnChar_append,
        splitOnChar_of_not_mem (hfree c (List.mem_cons_self _ _)),
        ih (by simp) (fun x hx => hfree x (List.mem_cons_of_mem _ hx))]
      rfl

theorem GetNextPortLoop_spec (used : List Int) (fuel : Nat) (start : Int)
    (hfree : ∃ p, start ≤ p ∧ p < start + fuel ∧ p ∉ used) :
    GetNextPortLoop used fuel start ∉ used ∧ start ≤ GetNextPortLoop used fuel start ∧
      ∀ q, start ≤ q → q < GetNextPortLoop used fuel start → q ∈ used := by
  induction fuel generalizing start with
  | zero =>
    obtain ⟨p, hp1, hp2, _⟩ := hfree
    omega
  | succ fuel ih =>
    simp only [GetNextPortLoop]
    by_cases hmem : start ∈ used
    · rw [if_pos hmem]
      obtain ⟨p, hp1, hp2, hp3⟩ := hfree
      have hps : p ≠ start := fun h => hp3 (h ▸ hmem)
      have hrec := ih (start + 1) ⟨p, by omega, by omega, hp3⟩
      refine ⟨hrec.1, by omega, fun q hq1 hq2 => ?_⟩
      by_cases hqs : q = start
      · exact hqs ▸ hmem
      · exact hrec.2.2 q (by omega) hq2
    · rw [if_neg hmem]
      exact ⟨hmem, le_refl _, fun q hq1 hq2 => absurd hq2 (by omega)⟩

theorem RollbackExecute_foldl (ops : List RollbackOperation) (acc : List String)
    (err : Option String) :
    ops.foldl
      (fun acc op =>
        (acc.1 ++ [op.description],
         match op.result with
         | some e => some e
         | none => acc.2))
      (acc, err) =
      (acc ++ ops.map (·.description),
       match ops.reverse.findSome? (·.result) with
       | some e => some e
       | none => err) := by
  induction ops generalizing acc err with
  | nil => simp
  | cons op rest ih =>
    simp only [List.foldl_cons, List.map_cons, List.reverse_cons]
    rw [ih]
    rw [List.findSome?_append]
    cases hrest : rest.reverse.findSome? (·.result) with
    | some e => simp
    | none =>
      cases hop : op.result with
      | none => simp [List.findSome?, hop]
      | some e => simp [List.findSome?, hop]

theorem splitOnChar_joinWith {sep : Char} {comps : List (List Char)} (hne : comps ≠ [])
    (hfree : ∀ c ∈ comps, sep ∉ c) :
    splitOnChar sep (joinWith sep comps) = comps := by
  induction comps with
  | nil => exact absurd rfl hne
  | cons c cs ih =>
    cases cs with
    | nil =>
      simp only [joinWith]
      exact splitOnChar_of_not_mem (hfree c (List.mem_cons_self _ _))
    | cons c2 cs2 =>
      have hj : joinWith sep (c :: c2 :: cs2) = c ++ sep :: joinWith sep (c2 :: cs2) := rfl
      rw [hj, splitOnChar_append,
        splitOnChar_of_not_mem (hfree c (List.mem_cons_self _ _)),
        ih (by simp) (fun x hx => hfree x (List.mem_cons_of_mem _ hx))]
      rfl

namespace Systemd

theorem breakAtChar_first {sep : Char} {k : List Char} (v : List Char) (hk : sep ∉ k) :
    breakAtChar sep (k ++ sep :: v) = some (k, v) := by
  induction k with
  | nil => simp [breakAtChar]
  | cons c rest ih =>
    simp only [List.mem_cons, not_or] at hk
    rw [List.cons_append, breakAtChar, if_neg (fun hc => hk.1 hc.symm), ih hk.2]
    rfl

theorem parseUnitLine_eq {k : List Char} (v : List Char) (hk : '=' ∉ k) :
    parseUnitLine (k ++ '=' :: v) = some (trimSpacesList k, trimSpacesList v) := by
  rw [parseUnitLine, breakAtChar_first v hk]
  rfl

theorem dropSpaces_of_head {l : List Char} (h : headNotSpace l = true) :
    l.dropWhile (fun c => c == ' ') = l := by
  cases l with
  | nil => rfl
  | cons c rest =>
    simp only [headNotSpace, bne_iff_ne, ne_eq] at h
    simp [List.dropWhile_cons, h]

theorem headNotSpace_append {l : List Char} (r : List Char) (h : headNotSpace l = true) :
    headNotSpace (l ++ r) = true := by
  cases l with
  | nil => simp [headNotSpace] at h
  | cons c rest => exact h

theorem trim_cons_space (w : List Char) :
    trimSpacesList (' ' :: w) = trimSpacesList w := by
  rw [trimSpacesList, trimSpacesList]
  simp [List.dropWhile_cons]

theorem trim_of_heads {w : List Char} (h1 : headNotSpace w = true)
    (h2 : headNotSpace w.reverse = true) : trimSpacesList w = w := by
  rw [trimSpacesList, dropSpaces_of_head h1, dropSpaces_of_head h2, List.reverse_reverse]

end Systemd

theorem cleanStack_rooted_good {comps acc : List (List Char)}
    (hcomps : ∀ c ∈ comps, '/' ∉ c) (hacc : ∀ c ∈ acc, goodComp c) :
    ∀ c ∈ cleanStack true comps acc, goodComp c := by
  induction comps generalizing acc with
  | nil =>
    intro c hc
    simp only [cleanStack] at hc
    exact hacc c (List.mem_reverse.mp hc)
  | cons comp comps ih =>
    intro c hc
    have hcomps2 : ∀ x ∈ comps, '/' ∉ x := fun x hx => hcomps x (List.mem_cons_of_mem _ hx)
    by_cases h1 : comp = [] ∨ comp = ['.']
    · have hstep : cleanStack true (comp :: comps) acc = cleanStack true comps acc := by
        rcases h1 with h | h <;> subst h <;> rfl
      rw [hstep] at hc
      exact ih hcomps2 hacc c hc
    · by_cases h2 : comp = ['.', '.']
      · subst h2
        cases acc with
        | nil =>
          have hstep : cleanStack true (['.', '.'] :: comps) [] = cleanStack true comps [] := rfl
          rw [hstep] at hc
          exact ih hcomps2 (by simp) c hc
        | cons top rest =>
          have htop : goodComp top := hacc top (List.mem_cons_self _ _)
          have hstep : cleanStack true (['.', '.'] :: comps) (top :: rest) =
              if top = ['.', '.'] then cleanStack true comps (['.', '.'] :: top :: rest)
              else cleanStack true comps rest := rfl
          rw [hstep, if_neg htop.2.2.1] at hc
          exact ih hcomps2 (fun x hx => hacc x (List.mem_cons_of_mem _ hx)) c hc
      · push_neg at h1
        have hstep : cleanStack true (comp :: comps) acc =
            cleanStack true comps (comp :: acc) := by
          simp only [cleanStack]
          rw [if_neg (by push_neg; exact h1), if_neg h2]
        rw [hstep] at hc
        have hcompGood : goodComp comp :=
          ⟨h1.1, h1.2, h2, hcomps comp (List.mem_cons_self _ _)⟩
        refine ih hcomps2 ?_ c hc
        intro x hx
        rcases List.mem_cons.mp hx with hx | hx
        · exact hx ▸ hcompGood
        · exact hacc x hx

theorem cleanStack_keep_all {comps : List (List Char)}
    (hcomps : ∀ c ∈ comps, goodComp c) :
    ∀ acc, cleanStack true comps acc = acc.reverse ++ comps := by
  induction comps with
  | nil => intro acc; simp [cleanStack]
  | cons comp comps ih =>
    intro acc
    have hcomp : goodComp comp := hcomps comp (List.mem_cons_self _ _)
    have hstep : cleanStack true (comp :: comps) acc = cleanStack true comps (comp :: acc) := by
      simp only [cleanStack]
      rw [if_neg (by push_neg; exact ⟨hcomp.1, hcomp.2.1⟩), if_neg hcomp.2.2.1]
    rw [hstep, ih (fun x hx => hcomps x (List.mem_cons_of_mem _ hx))]
    simp

theorem goClean_rooted {s : List Char} (h : isRooted s = true) :
    goClean s = '/' :: joinComps (cleanStack true (splitOnChar '/' s) []) := by
  rw [goClean]
  simp only [h, if_pos]

theorem goClean_rooted_good {s : List Char} (h : isRooted s = true) :
    ∀ c ∈ cleanStack true (splitOnChar '/' s) [], goodComp c :=
  cleanStack_rooted_good (fun c hc => not_mem_of_mem_splitOnChar hc) (by simp)

theorem splitOnChar_sep_cons (sep : Char) (l : List Char) :
    splitOnChar sep (sep :: l) = [] :: splitOnChar sep l := by
  rw [splitOnChar, if_pos rfl]

theorem joinComps_head_not_sep {comps : List (List Char)} {t : List Char}
    (hgood : ∀ c ∈ comps, goodComp c) (h : joinComps comps = '/' :: t) : False := by
  cases comps with
  | nil => simp [joinComps] at h
  | cons c cs =>
    have hc := hgood c (List.mem_cons_self _ _)
    cases hcc : c with
    | nil => exact hc.1 hcc
    | cons x xs =>
      have : x = '/' := by
        cases cs with
        | nil => rw [joinComps, hcc] at h; exact (List.cons.injEq _ _ _ _ ▸ h).1
        | cons c2 cs2 =>
          have hj : joinComps (c :: c2 :: cs2) = c ++ '/' :: joinComps (c2 :: cs2) := rfl
          rw [hj, hcc] at h
          exact (List.cons.injEq _ _ _ _ ▸ h).1
      exact hc.2.2.2 (by rw [hcc, this]; exact List.mem_cons_self _ _)

/-- Soundness of the zip-slip check: when `Clean(dest) + "/"` is a prefix of
the joined path, the joined path lies inside `dest`'s subtree. -/
theorem checked_path_inSubtree {dest name : List Char} (hroot : isRooted dest = true)
    (hcheck : (goClean dest ++ ['/']).isPrefixOf (goJoin dest name) = true) :
    inSubtree dest (goJoin dest name) := by
  have hdest_ne : dest ≠ [] := by
    intro h; rw [h] at hroot; simp [isRooted] at hroot
  have hpre : (goClean dest ++ ['/']) <+: goJoin dest name :=
    List.isPrefixOf_iff_prefix.mp hcheck
  obtain ⟨t, ht0⟩ := hpre
  have ht : goJoin dest name = goClean dest ++ '/' :: t := by
    rw [← ht0]; simp
  by_cases hname : name = []
  · exfalso
    have hj : goJoin dest name = goClean dest := by
      rw [goJoin, hname]
      simp [hdest_ne]
    rw [hj] at ht
    have hlen := congrArg List.length ht
    simp only [List.length_append, List.length_cons] at hlen
    omega
  · have hj : goJoin dest name = goClean (dest ++ '/' :: name) := by
      rw [goJoin, if_neg (by simp [hdest_ne]), if_neg hdest_ne, if_neg hname]
    have hroot2 : isRooted (dest ++ '/' :: name) = true := by
      cases dest with
      | nil => exact absurd rfl hdest_ne
      | cons d ds =>
        simp only [isRooted, List.cons_append, List.head?_cons] at hroot ⊢
        exact hroot
    set dcomps := cleanStack true (splitOnChar '/' dest) [] with hdcomps
    set pcomps := cleanStack true (splitOnChar '/' (dest ++ '/' :: name)) [] with hpcomps
    have hD : goClean dest = '/' :: joinComps dcomps := goClean_rooted hroot
    have hP : goJoin dest name = '/' :: joinComps pcomps := by
      rw [hj]; exact goClean_rooted hroot2
    have hDgood : ∀ c ∈ dcomps, goodComp c := goClean_rooted_good hroot
    have hPgood : ∀ c ∈ pcomps, goodComp c := goClean_rooted_good hroot2
    -- the path is strictly longer than Clean(dest) + "/", so pcomps ≠ []
    have hplen : (goClean dest).length + 1 ≤ (goJoin dest name).length := by
      rw [ht]
      simp only [List.length_append, List.length_cons]
      omega
    have hpcomps_ne : pcomps ≠ [] := by
      intro h0
      rw [hP, h0] at hplen
      rw [hD] at hplen
      simp only [joinComps, List.length_cons, List.length_nil] at hplen
      omega
    have hdcomps_ne : dcomps ≠ [] := by
      intro h0
      have h1 : ('/' : Char) :: joinComps pcomps = '/' :: '/' :: t := by
        rw [← hP, ht, hD, h0]
        simp [joinComps]
      injection h1 with _ h2
      exact joinComps_head_not_sep hPgood h2
    -- component decomposition of both sides
    have hsplitP : splitOnChar '/' (goJoin dest name) = [] :: pcomps := by
      rw [hP, splitOnChar_sep_cons,
        splitOnChar_joinComps hpcomps_ne (fun c hc => (hPgood c hc).2.2.2)]
    have hsplitD : splitOnChar '/' (goClean dest) = [] :: dcomps := by
      rw [hD, splitOnChar_sep_cons,
        splitOnChar_joinComps hdcomps_ne (fun c hc => (hDgood c hc).2.2.2)]
    have hsplit_app : splitOnChar '/' (goJoin dest name) =
        splitOnChar '/' (goClean dest) ++ splitOnChar '/' t := by
      rw [ht, splitOnChar_append]
    refine ⟨splitOnChar '/' t, hsplit_app, splitOnChar_ne_nil '/' t, ?_⟩
    -- every suffix component sits in pcomps, hence is good
    have hpc : pcomps = dcomps ++ splitOnChar '/' t := by
      have h1 : ([] : List Char) :: pcomps =
          ([] : List Char) :: (dcomps ++ splitOnChar '/' t) := by
        rw [← hsplitP, hsplit_app, hsplitD]; rfl
      exact (List.cons.injEq _ _ _ _ ▸ h1).2
    intro c hc
    exact hPgood c (by rw [hpc]; exact List.mem_append_right _ hc)

/-- C8: extraction rejects any entry whose resolved destination escapes the
service directory — such an entry always produces an error — and no path is
ever created outside the destination's subtree, even by entries processed
before a failure. -/
theorem c8_zip_slip_defense (dest : List Char) (entries : List ZipEntry)
    (hroot : isRooted dest = true) :
    (∀ p ∈ (extractZip dest entries).1, inSubtree dest p) ∧
    ((∃ e ∈ entries, ¬ inSubtree dest (goJoin dest e.name)) →
      (extractZip dest entries).2 ≠ none) := by
  induction entries with
  | nil =>
    constructor
    · intro p hp; simp [extractZip] at hp
    · rintro ⟨e, he, _⟩; simp at he
  | cons e rest ih =>
    by_cases hch : (goClean dest ++ ['/']).isPrefixOf (goJoin dest e.name) = true
    · have hrec := ih
      constructor
      · intro p hp
        rw [extractZip] at hp
        rw [if_pos hch] at hp
        rcases List.mem_cons.mp hp with hp | hp
        · exact hp ▸ checked_path_inSubtree hroot hch
        · exact hrec.1 p hp
      · rintro ⟨e2, he2, hesc⟩
        rcases List.mem_cons.mp he2 with he2 | he2
        · exact absurd (he2 ▸ checked_path_inSubtree hroot hch) hesc
        · have := hrec.2 ⟨e2, he2, hesc⟩
          rw [extractZip, if_pos hch]
          exact this
    · constructor
      · intro p hp
        rw [extractZip] at hp
        rw [if_neg hch] at hp
        simp at hp
      · intro _
        rw [extractZip, if_neg hch]
        simp

/-- Witness for `c8_zip_slip_defense`: the service directory
`/home/ubuntu/moots` with a normal entry and a traversal entry. -/
theorem c8_zip_slip_defense_witness :
    isRooted ("/home/ubuntu/moots").toList = true ∧
    ((∀ p ∈ (extractZip ("/home/ubuntu/moots").toList
        [⟨("pocketbase").toList, false⟩, ⟨("../../etc/passwd").toList, false⟩]).1,
      inSubtree ("/home/ubuntu/moots").toList p) ∧
    ((∃ e ∈ [ZipEntry.mk ("pocketbase").toList false,
              ZipEntry.mk ("../../etc/passwd").toList false],
        ¬ inSubtree ("/home/ubuntu/moots").toList
          (goJoin ("/home/ubuntu/moots").toList e.name)) →
      (extractZip ("/home/ubuntu/moots").toList
        [⟨("pocketbase").toList, false⟩, ⟨("../../etc/passwd").toList, false⟩]).2 ≠ none)) :=
  ⟨by decide, c8_zip_slip_defense _ _ (by decide)⟩

/-! ## Claim theorems for C1–C4 -/

/-- C1: the claim asserts strict `max+1` allocation, so ports {8091, 8092, 8094}
would yield 8095.  The allocator actually used by `Orchestrator.CreateService`
(`Manager.GetNextPort`) performs a first-free scan from 8091 and returns the
gap 8093, refuting the claim at its own example input. -/
theorem c1_counterexample :
    GetNextPort [8091, 8092, 8094] = 8093 ∧ GetNextPort [8091, 8092, 8094] ≠ 8095 := by
  decide

/-- C1 (amended): when the Create request omits the port,
`Manager.GetNextPort` assigns the smallest port that is at least 8091 and not
already used (first-free, filling gaps); in particular the empty used-port set
yields exactly 8091 and {8091, 8092, 8094} yields 8093, not 8095. -/
theorem c1_first_free_port (used : List Int)
    (hfree : ∃ p, 8091 ≤ p ∧ p ≤ 65535 ∧ p ∉ used) :
    GetNextPort used ∉ used ∧ 8091 ≤ GetNextPort used ∧
      ∀ q, 8091 ≤ q → q < GetNextPort used → q ∈ used := by
  have h := GetNextPortLoop_spec used 57445 8091
    (by obtain ⟨p, h1, h2, h3⟩ := hfree; exact ⟨p, h1, by omega, h3⟩)
  simpa [GetNextPort] using h

/-- Witness for `c1_first_free_port` at the used-port set {8091, 8092, 8094}. -/
theorem c1_first_free_port_witness :
    (∃ p : Int, 8091 ≤ p ∧ p ≤ 65535 ∧ p ∉ ([8091, 8092, 8094] : List Int)) ∧
      (GetNextPort [8091, 8092, 8094] ∉ ([8091, 8092, 8094] : List Int) ∧
        8091 ≤ GetNextPort [8091, 8092, 8094] ∧
        ∀ q, 8091 ≤ q → q < GetNextPort [8091, 8092, 8094] → q ∈ ([8091, 8092, 8094] : List Int)) :=
  ⟨⟨8093, by decide⟩, c1_first_free_port [8091, 8092, 8094] ⟨8093, by decide⟩⟩

/-- C2: the claim asserts that `Manager.RemoveService` deletes the matching
service's entire block and leaves every other byte unchanged.  On a config
holding exactly the one emitted block for moots.example.com:8094 (file =
newline, block, newline), full deletion would leave two newlines; the naive
`[^}]*` regex instead stops at the first closing brace, so bytes of the block
(its `reverse_proxy` section) survive in the file. -/
theorem c2_counterexample :
    Caddy.RemoveService "moots".toList "example.com".toList
        (Caddy.ConfigTemplateRendered "moots".toList "example.com".toList 8094) ≠
      "\n\n".toList ∧
    containsSub "reverse_proxy 127.0.0.1:8094".toList
        (Caddy.RemoveService "moots".toList "example.com".toList
          (Caddy.ConfigTemplateRendered "moots".toList "example.com".toList 8094)) = true := by
  decide

/-- C2 (amended): on a block of the emitted nested shape,
`Manager.RemoveService` deletes only the prefix of the block up to and
including the first closing brace (the end of `request_body`); the rest of the
block — the whole `reverse_proxy` sub-block and the two closing braces —
remains in the file. -/
theorem c2_naive_regex_residual :
    Caddy.RemoveService "moots".toList "example.com".toList
        (Caddy.ConfigTemplateRendered "moots".toList "example.com".toList 8094) =
      ("\n\n    reverse_proxy 127.0.0.1:8094 \x7b\n        transport http \x7b\n            read_timeout 360s\n        \x7d\n        # Add these headers to forward client IP\n        header_up X-Forwarded-For \x7bremote_host\x7d\n        header_up X-Real-IP \x7bremote_host\x7d\n    \x7d\n\x7d\n").toList := by
  decide

/-- C3: the claim asserts that adding a site block when one already exists for
the same subdomain.domain replaces it and succeeds.  `Manager.AddService`
(the implementation invoked by `Orchestrator`) instead returns an
"already exists" error and leaves the file alone. -/
theorem c3_counterexample :
    Caddy.AddService "moots".toList "example.com".toList 9001
        (Caddy.ConfigTemplateRendered "moots".toList "example.com".toList 8094) =
      .error ("configuration for moots.example.com already exists").toList := by
  rfl

/-- C3 (amended): `Manager.AddService` appends the block when none exists and
fails with an error when one does; the replace semantics lives only in
`CaddyManagerImpl.AddConfiguration`, which removes the existing block and
appends one routing to the new port, leaving other services' blocks unchanged. -/
theorem c3_add_or_replace_behavior :
    Caddy.AddService "moots".toList "example.com".toList 9001 [] =
      .ok (Caddy.ConfigTemplateRendered "moots".toList "example.com".toList 9001) ∧
    CaddyImpl.AddConfiguration "moots".toList "example.com".toList 9001
        (CaddyImpl.generateConfig "alpha".toList "example.com".toList 8095
          ++ CaddyImpl.generateConfig "moots".toList "example.com".toList 8094) =
      CaddyImpl.generateConfig "alpha".toList "example.com".toList 8095
        ++ CaddyImpl.generateConfig "moots".toList "example.com".toList 9001 := by
  exact ⟨rfl, by decide⟩

/-- C4: with two failing compensators appended in order e1, e2, `Rollback`
returns an error wrapping only e1's message (the one executed last); e2's
message is dropped, refuting "all errors are returned jointly". -/
theorem c4_counterexample :
    Rollback [⟨"systemd", "e1", some "boom1"⟩, ⟨"caddy", "e2", some "boom2"⟩] =
      (["e2", "e1"], [], some "errors occurred during rollback: boom1") ∧
    containsSub "boom2".toList ("errors occurred during rollback: boom1").toList = false := by
  decide

/-- C4 (amended): `Rollback` executes the compensators in exact reverse append
order, runs every one regardless of earlier failures, clears the journal, and
returns an error wrapping only the error of the last-executed failing
compensator (the earliest-appended one whose compensation fails); the other
compensator errors are logged but not returned. -/
theorem c4_rollback_reverse_last_error (ops : List RollbackOperation) :
    Rollback ops =
      (ops.reverse.map (·.description), [],
       (ops.findSome? (·.result)).map (fun e => "errors occurred during rollback: " ++ e)) := by
  cases ops with
  | nil => rfl
  | cons op rest =>
    show Rollback (op :: rest) = _
    rw [Rollback]
    rw [if_neg (by simp)]
    show ((RollbackExecute (op :: rest)).1, [],
        (RollbackExecute (op :: rest)).2.map _) = _
    rw [RollbackExecute, RollbackExecute_foldl]
    simp only [List.reverse_reverse, List.nil_append]
    cases h : (op :: rest).findSome? (·.result) with
    | none => simp [h]
    | some e => simp [h]

/-! ## Claim theorems for C5–C7 and C10 -/

/-- C5: when validation of a Create request fails,
`Orchestrator.CreateService` returns the error response carrying the
field-level validation errors and performs no side effect: the repository,
unit directory, gateway file, service directories, command journal and
pending deployments are all exactly as before. -/
theorem c5_validation_no_side_effects (env : Env) (st : SystemState) (req : ServiceRequest)
    (newId : String) (now : Int)
    (h : (createValidation env st req).isValid = false) :
    CreateService env st req newId now =
      (st, { id := "", status := "error", message := "Validation failed", data := none,
             errors := (createValidation env st req).errors }) := by
  simp only [CreateService, h]
  simp

/-- Witness for `c5_validation_no_side_effects`: an empty project name fails
validation, and Create leaves the empty state untouched. -/
theorem c5_validation_no_side_effects_witness :
    (createValidation ⟨"example.com", "/home/ubuntu", "/lib/systemd/system",
        fun _ => true, fun _ => true⟩ ⟨[], [], [], [], [], [], []⟩
        ⟨"", "0.28.4", 8094, "example.com", "", ""⟩).isValid = false ∧
      CreateService ⟨"example.com", "/home/ubuntu", "/lib/systemd/system",
          fun _ => true, fun _ => true⟩ ⟨[], [], [], [], [], [], []⟩
          ⟨"", "0.28.4", 8094, "example.com", "", ""⟩ "id1" 0 =
        (⟨[], [], [], [], [], [], []⟩,
         { id := "", status := "error", message := "Validation failed", data := none,
           errors := (createValidation ⟨"example.com", "/home/ubuntu", "/lib/systemd/system",
             fun _ => true, fun _ => true⟩ ⟨[], [], [], [], [], [], []⟩
             ⟨"", "0.28.4", 8094, "example.com", "", ""⟩).errors }) :=
  ⟨by decide, c5_validation_no_side_effects _ _ _ "id1" 0 (by decide)⟩

/-- C6: the claim says Delete preserves the service directory whenever the
row's status was ever `active`.  `Orchestrator.DeleteService` on a row whose
status is `active` right now still deletes the service directory (via
`service.Manager.Remove`'s unconditional `os.RemoveAll`). -/
theorem c6_counterexample :
    (SystemState.dirs (DeleteService
        ⟨"example.com", "/home/ubuntu", "/lib/systemd/system", fun _ => true, fun _ => true⟩
        ⟨[⟨"id1", "moots", 8094, "0.28.4", "example.com", "active", "", "", "admin", 0⟩],
          ["/lib/systemd/system/moots-pocketbase.service"], [], ["/home/ubuntu/moots"],
          [], [], []⟩
        "id1").1) = [] ∧
    (SystemState.records
        ⟨[⟨"id1", "moots", 8094, "0.28.4", "example.com", "active", "", "", "admin", 0⟩],
          ["/lib/systemd/system/moots-pocketbase.service"], [], ["/home/ubuntu/moots"],
          [], [], []⟩).map (·.status) = ["active"] := by
  decide

/-- C6 (amended): `Orchestrator.DeleteService` removes the unit file, applies
the gateway-block removal, and always deletes the service directory,
regardless of the row's status; the parallel
`ServiceCreationManager.DeleteService` of `internal/services` instead always
preserves the directory and logs the preserved path.  Neither consults
whether the status was ever `active`. -/
theorem c6_delete_directory_policy (env : Env) (st : SystemState) (id : String)
    (r : ServiceRecord) (hfind : st.records.find? (fun rr => rr.id == id) = some r) :
    (DeleteService env st id).1.dirs =
        st.dirs.filter (fun d => d != env.baseDir ++ "/" ++ r.projectName) ∧
    (DeleteService env st id).1.unitFiles =
        st.unitFiles.filter
          (fun p => p != env.systemdDir ++ "/" ++ systemdUnitFileName r.projectName) ∧
    (DeleteService env st id).1.records = st.records.filter (fun rr => rr.id != id) ∧
    (DeleteService env st id).2 =
        .ok { id := id, status := "success", message := "Service deleted successfully",
              data := none, errors := [] } ∧
    ∀ (baseDir systemdDir domain : String) (sst : Services.ScmState)
        (svc : Services.ImplService),
      (Services.ScmDeleteService baseDir systemdDir domain sst svc).1.dirs = sst.dirs ∧
      (Services.ScmDeleteService baseDir systemdDir domain sst svc).1.logLines =
        sst.logLines ++ ["Service directory will be preserved at: " ++ baseDir ++ "/" ++ svc.name] := by
  refine ⟨?_, ?_, ?_, ?_, ?_⟩
  · simp [DeleteService, hfind]
  · simp only [DeleteService, hfind]
    rw [List.filter_filter]
    simp
  · simp [DeleteService, hfind]
  · simp [DeleteService, hfind]
  · intro baseDir systemdDir domain sst svc
    constructor
    · simp only [Services.ScmDeleteService]
      split <;> simp
    · simp only [Services.ScmDeleteService]
      split <;> simp

/-- Witness for `c6_delete_directory_policy` on a one-service state whose row
is `active`. -/
theorem c6_delete_directory_policy_witness :
    (SystemState.records
        ⟨[⟨"id1", "moots", 8094, "0.28.4", "example.com", "active", "", "", "admin", 0⟩],
          ["/lib/systemd/system/moots-pocketbase.service"], [], ["/home/ubuntu/moots"],
          [], [], []⟩).find? (fun rr => rr.id == "id1") =
      some ⟨"id1", "moots", 8094, "0.28.4", "example.com", "active", "", "", "admin", 0⟩ ∧
    (DeleteService
        ⟨"example.com", "/home/ubuntu", "/lib/systemd/system", fun _ => false, fun _ => false⟩
        ⟨[⟨"id1", "moots", 8094, "0.28.4", "example.com", "active", "", "", "admin", 0⟩],
          ["/lib/systemd/system/moots-pocketbase.service"], [], ["/home/ubuntu/moots"],
          [], [], []⟩ "id1").1.dirs =
      (SystemState.dirs
        ⟨[⟨"id1", "moots", 8094, "0.28.4", "example.com", "active", "", "", "admin", 0⟩],
          ["/lib/systemd/system/moots-pocketbase.service"], [], ["/home/ubuntu/moots"],
          [], [], []⟩).filter (fun d => d != "/home/ubuntu" ++ "/" ++ "moots") :=
  ⟨by decide,
    (c6_delete_directory_policy
      ⟨"example.com", "/home/ubuntu", "/lib/systemd/system", fun _ => false, fun _ => false⟩
      _ "id1" ⟨"id1", "moots", 8094, "0.28.4", "example.com", "active", "", "", "admin", 0⟩
      (by decide)).1⟩

theorem healthCheckFoldl (isActive : String → Bool) (recs : List ServiceRecord)
    (logs : List String) :
    recs.foldl
      (fun logs svc =>
        if isActive svc.projectName && svc.status != "active" then
          logs ++ ["✅ Service " ++ svc.projectName ++ " is now active"]
        else if !isActive svc.projectName && svc.status == "active" then
          logs ++ ["⚠️  Service " ++ svc.projectName ++ " is now inactive"]
        else logs)
      logs = logs ++ recs.filterMap (transitionLog isActive) := by
  induction recs generalizing logs with
  | nil => simp
  | cons svc rest ih =>
    simp only [List.foldl_cons, List.filterMap_cons]
    by_cases h1 : (isActive svc.projectName && svc.status != "active") = true
    · rw [if_pos h1, ih, transitionLog, if_pos h1]
      simp
    · rw [if_neg h1]
      by_cases h2 : (!isActive svc.projectName && svc.status == "active") = true
      · rw [if_pos h2, ih, transitionLog, if_neg h1, if_pos h2]
        simp
      · rw [if_neg h2, ih, transitionLog, if_neg h1, if_neg h2]

/-- C7: a service whose row says `active` while the supervisor reports it
inactive.  The monitor detects and logs the transition, but the claim's
required repository update does not happen: the records (status and
`last_health_check` included) are returned byte-identical. -/
theorem c7_counterexample :
    (PerformHealthCheck (fun _ => false)
        ⟨[⟨"id1", "moots", 8094, "0.28.4", "example.com", "active", "", "", "admin", 0⟩],
          [], [], [], [], [], []⟩).records =
      [⟨"id1", "moots", 8094, "0.28.4", "example.com", "active", "", "", "admin", 0⟩] ∧
    (PerformHealthCheck (fun _ => false)
        ⟨[⟨"id1", "moots", 8094, "0.28.4", "example.com", "active", "", "", "admin", 0⟩],
          [], [], [], [], [], []⟩).logLines =
      ["🔍 Performing health check on all services...",
       "⚠️  Service moots is now inactive",
       "✅ Health check completed"] := by
  decide

/-- C7 (amended): the health monitor runs on a fixed 5-minute ticker and, for
each service whose supervisor state differs from the row status, logs the
transition — but it performs no repository write: the records (status and
`last_health_check` fields included) and all other state are unchanged. -/
theorem c7_health_check_logs_only (isActive : String → Bool) (st : SystemState) :
    (PerformHealthCheck isActive st).records = st.records ∧
    (PerformHealthCheck isActive st).unitFiles = st.unitFiles ∧
    (PerformHealthCheck isActive st).caddyfile = st.caddyfile ∧
    (PerformHealthCheck isActive st).dirs = st.dirs ∧
    (PerformHealthCheck isActive st).commands = st.commands ∧
    (PerformHealthCheck isActive st).logLines =
      st.logLines ++ ["🔍 Performing health check on all services..."]
        ++ st.records.filterMap (transitionLog isActive)
        ++ ["✅ Health check completed"] ∧
    healthCheckPeriodMinutes = 5 := by
  refine ⟨rfl, rfl, rfl, rfl, rfl, ?_, rfl⟩
  show (st.records.foldl _ (st.logLines ++ _)) ++ _ = _
  rw [healthCheckFoldl]

/-- C10: `Orchestrator.ControlService` on an existing record with an action
other than start/stop/restart returns the error response (message
`Invalid action: <action>`) together with a nil Go error, issues no
supervisor command, and leaves the stored record (status included)
unchanged. -/
theorem c10_invalid_action (env : Env) (st : SystemState) (id action : String) (now : Int)
    (svc : ServiceRecord) (hfind : st.records.find? (fun r => r.id == id) = some svc)
    (h1 : action ≠ "start") (h2 : action ≠ "stop") (h3 : action ≠ "restart") :
    ControlService env st id action now =
      (st, .ok { id := "", status := "error", message := "Invalid action: " ++ action,
                 data := none, errors := [] }) := by
  simp only [ControlService, hfind]
  rw [if_neg (by simp [h1, h2, h3])]

/-- Witness for `c10_invalid_action` at action "pause". -/
theorem c10_invalid_action_witness :
    (SystemState.records
        ⟨[⟨"id1", "moots", 8094, "0.28.4", "example.com", "active", "", "", "admin", 0⟩],
          [], [], [], [], [], []⟩).find? (fun r => r.id == "id1") =
      some ⟨"id1", "moots", 8094, "0.28.4", "example.com", "active", "", "", "admin", 0⟩ ∧
    ControlService ⟨"example.com", "/home/ubuntu", "/lib/systemd/system",
        fun _ => true, fun _ => true⟩
      ⟨[⟨"id1", "moots", 8094, "0.28.4", "example.com", "active", "", "", "admin", 0⟩],
        [], [], [], [], [], []⟩ "id1" "pause" 7 =
      (⟨[⟨"id1", "moots", 8094, "0.28.4", "example.com", "active", "", "", "admin", 0⟩],
        [], [], [], [], [], []⟩,
       .ok { id := "", status := "error", message := "Invalid action: " ++ "pause",
             data := none, errors := [] }) :=
  ⟨by decide,
    c10_invalid_action _ _ "id1" "pause" 7
      ⟨"id1", "moots", 8094, "0.28.4", "example.com", "active", "", "", "admin", 0⟩
      (by decide) (by decide) (by decide) (by decide)⟩

/-- C9: for every (project_name, service_dir, port), the unit file is placed
at `<unit_dir>/<project_name>-pocketbase.service` with mode 0644, and parsing
its rendered content as `Key = value` lines yields exactly the §6 fields:
Description, Type simple, User and Group root, LimitNOFILE 4096, Restart
always, RestartSec 5s, StandardOutput/StandardError appended to
`<service_dir>/errors.log`, WorkingDirectory `<service_dir>/`, ExecStart
`<service_dir>/pocketbase serve --http="127.0.0.1:<port>"`, and WantedBy
multi-user.target. -/
theorem c9_unit_file_fields (name dir : List Char) (port : Int)
    (hn : '\n' ∉ name) (hd : '\n' ∉ dir) (hp : '\n' ∉ intChars port)
    (hn2 : Systemd.headNotSpace name = true) (hd2 : Systemd.headNotSpace dir = true)
    (hslash : '/' ∉ name) :
    Systemd.unitFields (Systemd.ServiceTemplateRendered name dir port) =
      [ (("Description").toList, name ++ (" pocketbase").toList),
        (("Type").toList, ("simple").toList),
        (("User").toList, ("root").toList),
        (("Group").toList, ("root").toList),
        (("LimitNOFILE").toList, ("4096").toList),
        (("Restart").toList, ("always").toList),
        (("RestartSec").toList, ("5s").toList),
        (("StandardOutput").toList, ("append:").toList ++ dir ++ ("/errors.log").toList),
        (("StandardError").toList, ("append:").toList ++ dir ++ ("/errors.log").toList),
        (("WorkingDirectory").toList, dir ++ ("/").toList),
        (("ExecStart").toList,
          dir ++ ("/pocketbase serve --http=\"127.0.0.1:").toList ++ intChars port
            ++ ("\"").toList),
        (("WantedBy").toList, ("multi-user.target").toList) ] ∧
    Systemd.CreateServicePath ("/lib/systemd/system").toList name =
      ("/lib/systemd/system/").toList ++ name ++ ("-pocketbase.service").toList ∧
    Systemd.serviceFileMode = 0o644 := by
  refine ⟨?_, ?_, rfl⟩
  · -- split the rendered template into its lines
    have e1 : ("[Unit]\nDescription = ").toList =
        ("[Unit]").toList ++ '\n' :: ("Description = ").toList := rfl
    have e2 : (" pocketbase\n\n[Service]\nType           = simple\nUser           = root\nGroup          = root\nLimitNOFILE    = 4096\nRestart        = always\nRestartSec     = 5s\nStandardOutput   = append:").toList =
        (" pocketbase").toList ++ '\n' :: '\n' :: (("[Service]").toList
          ++ '\n' :: (("Type           = simple").toList
          ++ '\n' :: (("User           = root").toList
          ++ '\n' :: (("Group          = root").toList
          ++ '\n' :: (("LimitNOFILE    = 4096").toList
          ++ '\n' :: (("Restart        = always").toList
          ++ '\n' :: (("RestartSec     = 5s").toList
          ++ '\n' :: ("StandardOutput   = append:").toList))))))) := rfl
    have e3 : ("/errors.log\nStandardError    = append:").toList =
        ("/errors.log").toList ++ '\n' :: ("StandardError    = append:").toList := rfl
    have e4 : ("/errors.log\nWorkingDirectory = ").toList =
        ("/errors.log").toList ++ '\n' :: ("WorkingDirectory = ").toList := rfl
    have e5 : ("/\nExecStart      = ").toList =
        ("/").toList ++ '\n' :: ("ExecStart      = ").toList := rfl
    have e6 : ("\"\n\n[Install]\nWantedBy = multi-user.target\n").toList =
        ("\"").toList ++ '\n' :: '\n' :: (("[Install]").toList
          ++ '\n' :: (("WantedBy = multi-user.target").toList ++ '\n' :: ([] : List Char))) := rfl
    have hform : Systemd.ServiceTemplateRendered name dir port =
        joinWith '\n'
          [("[Unit]").toList,
           ("Description = ").toList ++ name ++ (" pocketbase").toList,
           [],
           ("[Service]").toList,
           ("Type           = simple").toList,
           ("User           = root").toList,
           ("Group          = root").toList,
           ("LimitNOFILE    = 4096").toList,
           ("Restart        = always").toList,
           ("RestartSec     = 5s").toList,
           ("StandardOutput   = append:").toList ++ dir ++ ("/errors.log").toList,
           ("StandardError    = append:").toList ++ dir ++ ("/errors.log").toList,
           ("WorkingDirectory = ").toList ++ dir ++ ("/").toList,
           ("ExecStart      = ").toList ++ dir
             ++ ("/pocketbase serve --http=\"127.0.0.1:").toList ++ intChars port
             ++ ("\"").toList,
           [],
           ("[Install]").toList,
           ("WantedBy = multi-user.target").toList,
           []] := by
      rw [Systemd.ServiceTemplateRendered, e1, e2, e3, e4, e5, e6]
      simp only [joinWith, List.append_assoc, List.cons_append, List.nil_append,
        List.append_nil]
    have hfree : ∀ l ∈
        [("[Unit]").toList,
         ("Description = ").toList ++ name ++ (" pocketbase").toList,
         ([] : List Char),
         ("[Service]").toList,
         ("Type           = simple").toList,
         ("User           = root").toList,
         ("Group          = root").toList,
         ("LimitNOFILE    = 4096").toList,
         ("Restart        = always").toList,
         ("RestartSec     = 5s").toList,
         ("StandardOutput   = append:").toList ++ dir ++ ("/errors.log").toList,
         ("StandardError    = append:").toList ++ dir ++ ("/errors.log").toList,
         ("WorkingDirectory = ").toList ++ dir ++ ("/").toList,
         ("ExecStart      = ").toList ++ dir
           ++ ("/pocketbase serve --http=\"127.0.0.1:").toList ++ intChars port
           ++ ("\"").toList,
         ([] : List Char),
         ("[Install]").toList,
         ("WantedBy = multi-user.target").toList,
         ([] : List Char)], '\n' ∉ l := by
      intro l hl
      simp only [List.mem_cons, List.not_mem_nil, or_false] at hl
      rcases hl with rfl | rfl | rfl | rfl | rfl | rfl | rfl | rfl | rfl | rfl | rfl | rfl |
        rfl | rfl | rfl | rfl | rfl | rfl
      · decide
      · intro hmem
        rcases List.mem_append.mp hmem with h | h
        · rcases List.mem_append.mp h with h | h
          · exact absurd h (by decide)
          · exact hn h
        · exact absurd h (by decide)
      · decide
      · decide
      · decide
      · decide
      · decide
      · decide
      · decide
      · decide
      · intro hmem
        rcases List.mem_append.mp hmem with h | h
        · rcases List.mem_append.mp h with h | h
          · exact absurd h (by decide)
          · exact hd h
        · exact absurd h (by decide)
      · intro hmem
        rcases List.mem_append.mp hmem with h | h
        · rcases List.mem_append.mp h with h | h
          · exact absurd h (by decide)
          · exact hd h
        · exact absurd h (by decide)
      · intro hmem
        rcases List.mem_append.mp hmem with h | h
        · rcases List.mem_append.mp h with h | h
          · exact absurd h (by decide)
          · exact hd h
        · exact absurd h (by decide)
      · intro hmem
        rcases List.mem_append.mp hmem with h | h
        · rcases List.mem_append.mp h with h | h
          · rcases List.mem_append.mp h with h | h
            · rcases List.mem_append.mp h with h | h
              · exact absurd h (by decide)
              · exact hd h
            · exact absurd h (by decide)
          · exact hp h
        · exact absurd h (by decide)
      · decide
      · decide
      · decide
      · decide
    -- parse each line
    have hP2 : Systemd.parseUnitLine
        (("Description = ").toList ++ name ++ (" pocketbase").toList) =
        some (("Description").toList, name ++ (" pocketbase").toList) := by
      have hshape : ("Description = ").toList ++ name ++ (" pocketbase").toList =
          ("Description ").toList ++ '=' :: (' ' :: (name ++ (" pocketbase").toList)) := rfl
      rw [hshape, Systemd.parseUnitLine_eq _ (by decide), Systemd.trim_cons_space,
        Systemd.trim_of_heads (Systemd.headNotSpace_append _ hn2)
          (by rw [List.reverse_append]; exact Systemd.headNotSpace_append _ (by decide)),
        show Systemd.trimSpacesList ("Description ").toList = ("Description").toList from
          by decide]
    have hP11 : Systemd.parseUnitLine
        (("StandardOutput   = append:").toList ++ dir ++ ("/errors.log").toList) =
        some (("StandardOutput").toList, ("append:").toList ++ dir ++ ("/errors.log").toList) := by
      have hshape : ("StandardOutput   = append:").toList ++ dir ++ ("/errors.log").toList =
          ("StandardOutput   ").toList
            ++ '=' :: (' ' :: (("append:").toList ++ dir ++ ("/errors.log").toList)) := rfl
      rw [hshape, Systemd.parseUnitLine_eq _ (by decide), Systemd.trim_cons_space,
        Systemd.trim_of_heads
          (Systemd.headNotSpace_append _ (Systemd.headNotSpace_append _ (by decide)))
          (by rw [List.reverse_append]; exact Systemd.headNotSpace_append _ (by decide)),
        show Systemd.trimSpacesList ("StandardOutput   ").toList = ("StandardOutput").toList
          from by decide]
    have hP12 : Systemd.parseUnitLine
        (("StandardError    = append:").toList ++ dir ++ ("/errors.log").toList) =
        some (("StandardError").toList, ("append:").toList ++ dir ++ ("/errors.log").toList) := by
      have hshape : ("StandardError    = append:").toList ++ dir ++ ("/errors.log").toList =
          ("StandardError    ").toList
            ++ '=' :: (' ' :: (("append:").toList ++ dir ++ ("/errors.log").toList)) := rfl
      rw [hshape, Systemd.parseUnitLine_eq _ (by decide), Systemd.trim_cons_space,
        Systemd.trim_of_heads
          (Systemd.headNotSpace_append _ (Systemd.headNotSpace_append _ (by decide)))
          (by rw [List.reverse_append]; exact Systemd.headNotSpace_append _ (by decide)),
        show Systemd.trimSpacesList ("StandardError    ").toList = ("StandardError").toList
          from by decide]
    have hP13 : Systemd.parseUnitLine (("WorkingDirectory = ").toList ++ dir ++ ("/").toList) =
        some (("WorkingDirectory").toList, dir ++ ("/").toList) := by
      have hshape : ("WorkingDirectory = ").toList ++ dir ++ ("/").toList =
          ("WorkingDirectory ").toList ++ '=' :: (' ' :: (dir ++ ("/").toList)) := rfl
      rw [hshape, Systemd.parseUnitLine_eq _ (by decide), Systemd.trim_cons_space,
        Systemd.trim_of_heads (Systemd.headNotSpace_append _ hd2)
          (by rw [List.reverse_append]; exact Systemd.headNotSpace_append _ (by decide)),
        show Systemd.trimSpacesList ("WorkingDirectory ").toList = ("WorkingDirectory").toList
          from by decide]
    have hP14 : Systemd.parseUnitLine (("ExecStart      = ").toList ++ dir
        ++ ("/pocketbase serve --http=\"127.0.0.1:").toList ++ intChars port
        ++ ("\"").toList) =
        some (("ExecStart").toList, dir ++ ("/pocketbase serve --http=\"127.0.0.1:").toList
          ++ intChars port ++ ("\"").toList) := by
      have hshape : ("ExecStart      = ").toList ++ dir
          ++ ("/pocketbase serve --http=\"127.0.0.1:").toList ++ intChars port
          ++ ("\"").toList =
          ("ExecStart      ").toList
            ++ '=' :: (' ' :: (dir ++ ("/pocketbase serve --http=\"127.0.0.1:").toList
              ++ intChars port ++ ("\"").toList)) := rfl
      rw [hshape, Systemd.parseUnitLine_eq _ (by decide), Systemd.trim_cons_space,
        Systemd.trim_of_heads
          (Systemd.headNotSpace_append _
            (Systemd.headNotSpace_append _ (Systemd.headNotSpace_append _ hd2)))
          (by rw [List.reverse_append, List.reverse_append, List.reverse_append]
              exact Systemd.headNotSpace_append _ (by decide)),
        show Systemd.trimSpacesList ("ExecStart      ").toList = ("ExecStart").toList from
          by decide]
    rw [Systemd.unitFields, hform, splitOnChar_joinWith (by simp) hfree]
    simp only [List.filterMap_cons, List.filterMap_nil, hP2, hP11, hP12, hP13, hP14,
      show Systemd.parseUnitLine ("[Unit]").toList = none from by decide,
      show Systemd.parseUnitLine ([] : List Char) = none from by decide,
      show Systemd.parseUnitLine ("[Service]").toList = none from by decide,
      show Systemd.parseUnitLine ("Type           = simple").toList =
        some (("Type").toList, ("simple").toList) from by decide,
      show Systemd.parseUnitLine ("User           = root").toList =
        some (("User").toList, ("root").toList) from by decide,
      show Systemd.parseUnitLine ("Group          = root").toList =
        some (("Group").toList, ("root").toList) from by decide,
      show Systemd.parseUnitLine ("LimitNOFILE    = 4096").toList =
        some (("LimitNOFILE").toList, ("4096").toList) from by decide,
      show Systemd.parseUnitLine ("Restart        = always").toList =
        some (("Restart").toList, ("always").toList) from by decide,
      show Systemd.parseUnitLine ("RestartSec     = 5s").toList =
        some (("RestartSec").toList, ("5s").toList) from by decide,
      show Systemd.parseUnitLine ("[Install]").toList = none from by decide,
      show Systemd.parseUnitLine ("WantedBy = multi-user.target").toList =
        some (("WantedBy").toList, ("multi-user.target").toList) from by decide]
  · -- the unit-file path
    have hbne : name ++ ("-pocketbase.service").toList ≠ [] := by simp
    have hbfree : '/' ∉ name ++ ("-pocketbase.service").toList := by
      intro h
      rcases List.mem_append.mp h with h | h
      · exact hslash h
      · exact absurd h (by decide)
    have hblen : (name ++ ("-pocketbase.service").toList).length = name.length + 19 := by
      simp
    have hbgood : goodComp (name ++ ("-pocketbase.service").toList) := by
      refine ⟨hbne, ?_, ?_, hbfree⟩
      · intro h
        have := congrArg List.length h
        rw [hblen] at this
        simp at this
      · intro h
        have := congrArg List.length h
        rw [hblen] at this
        simp at this
    rw [Systemd.CreateServicePath, goJoin, if_neg (by simp), if_neg (by decide),
      if_neg hbne]
    have hr : isRooted (("/lib/systemd/system").toList
        ++ '/' :: (name ++ ("-pocketbase.service").toList)) = true := rfl
    rw [goClean_rooted hr]
    have hsp : splitOnChar '/' (("/lib/systemd/system").toList
        ++ '/' :: (name ++ ("-pocketbase.service").toList)) =
        [[], ("lib").toList, ("systemd").toList, ("system").toList,
          name ++ ("-pocketbase.service").toList] := by
      rw [splitOnChar_append, splitOnChar_of_not_mem hbfree,
        show splitOnChar '/' ("/lib/systemd/system").toList =
          [[], ("lib").toList, ("systemd").toList, ("system").toList] from by decide]
      rfl
    rw [hsp]
    have hstep0 : cleanStack true
        [[], ("lib").toList, ("systemd").toList, ("system").toList,
          name ++ ("-pocketbase.service").toList] [] =
        cleanStack true
          [("lib").toList, ("systemd").toList, ("system").toList,
            name ++ ("-pocketbase.service").toList] [] := rfl
    rw [hstep0, cleanStack_keep_all ?hgood []]
    case hgood =>
      intro c hc
      simp only [List.mem_cons, List.not_mem_nil, or_false] at hc
      rcases hc with rfl | rfl | rfl | rfl
      · exact ⟨by decide, by decide, by decide, by decide⟩
      · exact ⟨by decide, by decide, by decide, by decide⟩
      · exact ⟨by decide, by decide, by decide, by decide⟩
      · exact hbgood
    have hjoin : ('/' : Char) :: joinWith '/'
        [("lib").toList, ("systemd").toList, ("system").toList,
          name ++ ("-pocketbase.service").toList] =
        ("/lib/systemd/system/").toList ++ (name ++ ("-pocketbase.service").toList) := rfl
    have hjc : joinComps
        [("lib").toList, ("systemd").toList, ("system").toList,
          name ++ ("-pocketbase.service").toList] = joinWith '/'
        [("lib").toList, ("systemd").toList, ("system").toList,
          name ++ ("-pocketbase.service").toList] := rfl
    simp only [List.reverse_nil, List.nil_append]
    rw [hjc, hjoin]
    simp [List.append_assoc]

/-- Witness for `c9_unit_file_fields` at project "moots", service directory
`/home/ubuntu/moots`, port 8094. -/
theorem c9_unit_file_fields_witness :
    ('\n' ∉ ("moots").toList ∧ '\n' ∉ ("/home/ubuntu/moots").toList ∧
      '\n' ∉ intChars 8094 ∧ Systemd.headNotSpace ("moots").toList = true ∧
      Systemd.headNotSpace ("/home/ubuntu/moots").toList = true ∧
      '/' ∉ ("moots").toList) ∧
    (Systemd.unitFields (Systemd.ServiceTemplateRendered ("moots").toList
        ("/home/ubuntu/moots").toList 8094) =
      [ (("Description").toList, ("moots").toList ++ (" pocketbase").toList),
        (("Type").toList, ("simple").toList),
        (("User").toList, ("root").toList),
        (("Group").toList, ("root").toList),
        (("LimitNOFILE").toList, ("4096").toList),
        (("Restart").toList, ("always").toList),
        (("RestartSec").toList, ("5s").toList),
        (("StandardOutput").toList,
          ("append:").toList ++ ("/home/ubuntu/moots").toList ++ ("/errors.log").toList),
        (("StandardError").toList,
          ("append:").toList ++ ("/home/ubuntu/moots").toList ++ ("/errors.log").toList),
        (("WorkingDirectory").toList, ("/home/ubuntu/moots").toList ++ ("/").toList),
        (("ExecStart").toList,
          ("/home/ubuntu/moots").toList ++ ("/pocketbase serve --http=\"127.0.0.1:").toList
            ++ intChars 8094 ++ ("\"").toList),
        (("WantedBy").toList, ("multi-user.target").toList) ] ∧
    Systemd.CreateServicePath ("/lib/systemd/system").toList ("moots").toList =
      ("/lib/systemd/system/").toList ++ ("moots").toList ++ ("-pocketbase.service").toList ∧
    Systemd.serviceFileMode = 0o644) :=
  ⟨⟨by decide, by decide, by decide, by decide, by decide, by decide⟩,
   c9_unit_file_fields ("moots").toList ("/home/ubuntu/moots").toList 8094
     (by decide) (by decide) (by decide) (by decide) (by decide) (by decide)⟩

end Pockestrator
